import Mathlib

/-!
# Formal model of the web-chatbot conversation layer (`app.py`)

A shallow embedding of the deterministic control logic of the chatbot server:
the per-turn decision procedure of the `/api/chat` endpoint (`chat`), the
canned-answer dispatch of `generate_response`, the best-effort retrieval
wrapper `get_relevant_context`, the text post-processor `format_response`,
and the `/api/clear` endpoint (`clear_history`).

Conventions of the embedding:
* Python strings are Lean `String`s; character-level scanning is done on
  `List Char` (`String.data`).  Python's `\s` / `str.strip()` whitespace
  class is modelled over its ASCII range (`pyIsSpace`); all string literals
  appearing in the program are ASCII-spaced, so this is faithful on the
  program's own data.
* The two external collaborators (embedding+vector search, text generation)
  are opaque: each call site receives a `PyOutcome` value describing whether
  the call returned a value or raised an exception, mirroring the
  `try`/`except` structure of the source.
* The three `re.sub` patterns of `format_response` are implemented as
  left-to-right scanners with the exact greedy/backtracking behaviour of the
  Python `re` engine on these patterns (each pattern is deterministic:
  backtracking can never produce a match where the greedy scan fails).
* Session state is the pair stored in the Flask session: the ordered
  exchange list and the optional tone.  A turn is a pure function from
  (state, request message, environment) to (HTTP outcome, new state); the
  outcome record additionally carries instrumentation flags recording
  whether retrieval was invoked, whether the language-model call was
  reached, and which query string was handed to `generate_response`.
-/

set_option maxHeartbeats 1600000
set_option maxRecDepth 4000

/-- Python whitespace class for `\s` and `str.strip` (ASCII range):
space, tab, newline, carriage return, vertical tab, form feed. -/
def pyIsSpace (c : Char) : Bool :=
  c = ' ' || c = '\t' || c = '\n' || c = '\r' || c = '\x0b' || c = '\x0c'

/-- `str.lower()` (the program only lowercases ASCII text). -/
def pyLower (s : String) : String :=
  ⟨s.data.map Char.toLower⟩

/-- `str.strip()` on a character list: drop leading and trailing whitespace. -/
def pyStripList (l : List Char) : List Char :=
  ((l.dropWhile pyIsSpace).reverse.dropWhile pyIsSpace).reverse

/-- `str.strip()`. -/
def pyStrip (s : String) : String :=
  ⟨pyStripList s.data⟩

/-- Helper for `len(s.split())`: counts maximal whitespace-separated words. -/
def wordCountAux : List Char → Bool → Nat
  | [], _ => 0
  | c :: rest, inWord =>
    if pyIsSpace c then wordCountAux rest false
    else (if inWord then 0 else 1) + wordCountAux rest true

/-- `len(s.split())`: number of whitespace-separated words. -/
def pyWordCount (s : String) : Nat :=
  wordCountAux s.data false

/-- Boolean infix test: does `needle` occur contiguously inside `hay`? -/
def listIsInfixOf (needle : List Char) (hay : List Char) : Bool :=
  match hay with
  | [] => needle.isEmpty
  | _ :: t => needle.isPrefixOf hay || listIsInfixOf needle t

/-- Python `needle in hay` on strings (substring test). -/
def containsSub (needle : String) (hay : List Char) : Bool :=
  listIsInfixOf needle.data hay

/-- `any(keyword in hay for keyword in kws)`. -/
def anyKeyword (kws : List String) (hay : List Char) : Bool :=
  kws.any (fun k => containsSub k hay)

/-- `str.split(sep)` for a one-character separator. -/
def splitOnChar (sep : Char) : List Char → List (List Char)
  | [] => [[]]
  | c :: rest =>
    match splitOnChar sep rest with
    | [] => [[]]
    | h :: t => if c = sep then [] :: h :: t else (c :: h) :: t

def dropWhileLenLe (p : Char → Bool) (l : List Char) :
    (l.dropWhile p).length ≤ l.length := by
  have h : List.Sublist (l.dropWhile p) l := List.dropWhile_sublist p
  exact h.length_le

/-! ## `format_response` (app.py lines 315-349)

`re.sub(r'\*\*([^*]+)\*\*', r'<b>\1</b>', text)`, the `<br>` run collapse
`re.sub(r'(<br>\s*){3,}', '<br><br>', text)`, the bullet re-join, and the two
numbered-list substitutions, as left-to-right scanners. -/

def notStar (c : Char) : Bool := c ≠ '*'

def startsTwoStars : List Char → Bool
  | '*' :: '*' :: _ => true
  | _ => false

/-- `re.sub(r'\*\*([^*]+)\*\*', r'<b>\1</b>', text)`: at each position try
`**`, a maximal nonempty star-free run, `**`; on success emit the
replacement and continue after the match, otherwise emit one character. -/
def boldSub (l : List Char) : List Char :=
  match l with
  | '*' :: '*' :: rest =>
    if (rest.takeWhile notStar).isEmpty = false ∧
        startsTwoStars (rest.dropWhile notStar) = true then
      '<' :: 'b' :: '>' :: (rest.takeWhile notStar ++
        '<' :: '/' :: 'b' :: '>' :: boldSub ((rest.dropWhile notStar).drop 2))
    else '*' :: boldSub ('*' :: rest)
  | c :: rest => c :: boldSub rest
  | [] => []
termination_by l.length
decreasing_by
  · have h := dropWhileLenLe notStar rest
    have h2 := List.length_drop 2 (rest.dropWhile notStar)
    simp only [List.length_cons]
    omega
  · simp only [List.length_cons]
    omega
  · simp only [List.length_cons]
    omega

/-- Greedy matcher for `(<br>\s*)+`: the number of repetitions consumed and
the remainder of the input after the last repetition's trailing whitespace. -/
def brRun (l : List Char) : Nat × List Char :=
  match l with
  | '<' :: 'b' :: 'r' :: '>' :: rest =>
    let p := brRun (rest.dropWhile pyIsSpace)
    (p.1 + 1, p.2)
  | _ => (0, l)
termination_by l.length
decreasing_by
  simp only [List.length_cons]
  have h := dropWhileLenLe pyIsSpace rest
  omega

def brRun_len : ∀ l : List Char, (brRun l).2.length + 4 * (brRun l).1 ≤ l.length := by
  intro l
  induction l using brRun.induct with
  | case1 rest ih =>
    rw [brRun]
    have h := dropWhileLenLe pyIsSpace rest
    simp only [List.length_cons]
    omega
  | case2 l h =>
    rw [brRun.eq_def]
    split
    · rename_i rest
      exact absurd rfl (h rest)
    · simp

def brRun_snd_lt (l : List Char) (h : (brRun l).1 ≥ 3) :
    (brRun l).2.length < l.length := by
  have h2 := brRun_len l
  omega

/-- `re.sub(r'(<br>\s*){3,}', '<br><br>', text)`: a run of three or more
`<br>`-plus-whitespace repetitions is replaced by `<br><br>`. -/
def collapseBr (l : List Char) : List Char :=
  match l with
  | [] => []
  | c :: rest =>
    if (brRun (c :: rest)).1 ≥ 3 then
      '<' :: 'b' :: 'r' :: '>' :: '<' :: 'b' :: 'r' :: '>' :: collapseBr (brRun (c :: rest)).2
    else
      c :: collapseBr rest
termination_by l.length
decreasing_by
  · exact brRun_snd_lt _ (by assumption)
  · simp

/-- Does the list start with the four characters of a `<br>` tag?  (The
head of one repetition of the collapse pattern.) -/
def brPre : List Char → Bool
  | '<' :: 'b' :: 'r' :: '>' :: _ => true
  | _ => false

/-- The bullet re-join branch (lines 329-343): split on `•`, strip the
intro and each bullet, drop empty bullets, and re-join with `<br>`s; if no
non-empty bullet remains the text is unchanged. -/
def bulletize (l : List Char) : List Char :=
  match splitOnChar '•' l with
  | [] => l
  | intro :: rest =>
    let bullets := rest.filterMap (fun line =>
      let line' := pyStripList line
      if line'.isEmpty then none else some ('•' :: ' ' :: line'))
    if bullets.isEmpty then l
    else pyStripList intro ++ '<' :: 'b' :: 'r' :: '>' :: '<' :: 'b' :: 'r' :: '>' ::
      List.intercalate ('<' :: 'b' :: 'r' :: '>' :: []) bullets

def notLt (c : Char) : Bool := c ≠ '<'

/-- Tail matcher for `(\d+)\.\s+\*\*([^*]+)\*\*` after the digits: expects
`.`, nonempty whitespace, `**`, nonempty star-free content, `**`; returns
the content and the rest of the input. -/
def numTail1 (l : List Char) : Option (List Char × List Char) :=
  match l with
  | '.' :: r1 =>
    if (r1.takeWhile pyIsSpace).isEmpty then none
    else
      match r1.dropWhile pyIsSpace with
      | '*' :: '*' :: r3 =>
        if (r3.takeWhile notStar).isEmpty then none
        else if startsTwoStars (r3.dropWhile notStar) then
          some (r3.takeWhile notStar, (r3.dropWhile notStar).drop 2)
        else none
      | _ => none
  | _ => none

def numTail1_len : ∀ l p, numTail1 l = some p → p.2.length < l.length := by
  intro l p h
  rw [numTail1.eq_def] at h
  split at h
  · rename_i r1
    split at h
    · exact absurd h (by simp)
    · split at h
      · rename_i r3 heq
        split at h
        · exact absurd h (by simp)
        · split at h
          · have h3 : r3.length + 2 ≤ r1.length := by
              have h4 := dropWhileLenLe pyIsSpace r1
              rw [heq] at h4
              simp only [List.length_cons] at h4
              omega
            have h5 := dropWhileLenLe notStar r3
            have h6 := List.length_drop 2 (r3.dropWhile notStar)
            cases h
            simp only [List.length_cons]
            omega
          · exact absurd h (by simp)
      · exact absurd h (by simp)
  · exact absurd h (by simp)

def numSub1_dec (c : Char) (t : List Char)
    (h : (numTail1 ((c :: t).dropWhile Char.isDigit)).isSome = true) :
    ((numTail1 ((c :: t).dropWhile Char.isDigit)).getD ([], [])).2.length <
      (c :: t).length := by
  obtain ⟨q, hq⟩ := Option.isSome_iff_exists.mp h
  have h1 := numTail1_len _ q hq
  have h2 := dropWhileLenLe Char.isDigit (c :: t)
  rw [hq]
  simp only [Option.getD_some]
  simp only [List.length_cons] at h2 ⊢
  omega

/-- `re.sub(r'(\d+)\.\s+\*\*([^*]+)\*\*', r'• <b>\2</b>', text)`. -/
def numSub1 (l : List Char) : List Char :=
  match l with
  | [] => []
  | c :: t =>
    if c.isDigit then
      if h : (numTail1 ((c :: t).dropWhile Char.isDigit)).isSome = true then
        let p := (numTail1 ((c :: t).dropWhile Char.isDigit)).getD ([], [])
        '•' :: ' ' :: '<' :: 'b' :: '>' :: (p.1 ++ '<' :: '/' :: 'b' :: '>' :: numSub1 p.2)
      else c :: numSub1 t
    else c :: numSub1 t
termination_by l.length
decreasing_by
  · exact numSub1_dec _ _ (by assumption)
  · simp
  · simp

/-- Tail matcher for `(\d+)\.\s+<b>([^<]+)</b>` after the digits. -/
def numTail2 (l : List Char) : Option (List Char × List Char) :=
  match l with
  | '.' :: r1 =>
    if (r1.takeWhile pyIsSpace).isEmpty then none
    else
      match r1.dropWhile pyIsSpace with
      | '<' :: 'b' :: '>' :: r3 =>
        if (r3.takeWhile notLt).isEmpty then none
        else
          match r3.dropWhile notLt with
          | '<' :: '/' :: 'b' :: '>' :: r4 => some (r3.takeWhile notLt, r4)
          | _ => none
      | _ => none
  | _ => none

def numTail2_len : ∀ l p, numTail2 l = some p → p.2.length < l.length := by
  intro l p h
  rw [numTail2.eq_def] at h
  split at h
  · rename_i r1
    split at h
    · exact absurd h (by simp)
    · split at h
      · rename_i r3 heq
        split at h
        · exact absurd h (by simp)
        · split at h
          · rename_i r4 heq2
            have h3 : r3.length + 3 ≤ r1.length := by
              have h4 := dropWhileLenLe pyIsSpace r1
              rw [heq] at h4
              simp only [List.length_cons] at h4
              omega
            have h5 : r4.length + 4 ≤ r3.length := by
              have h6 := dropWhileLenLe notLt r3
              rw [heq2] at h6
              simp only [List.length_cons] at h6
              omega
            cases h
            simp only [List.length_cons]
            omega
          · exact absurd h (by simp)
      · exact absurd h (by simp)
  · exact absurd h (by simp)

def numSub2_dec (c : Char) (t : List Char)
    (h : (numTail2 ((c :: t).dropWhile Char.isDigit)).isSome = true) :
    ((numTail2 ((c :: t).dropWhile Char.isDigit)).getD ([], [])).2.length <
      (c :: t).length := by
  obtain ⟨q, hq⟩ := Option.isSome_iff_exists.mp h
  have h1 := numTail2_len _ q hq
  have h2 := dropWhileLenLe Char.isDigit (c :: t)
  rw [hq]
  simp only [Option.getD_some]
  simp only [List.length_cons] at h2 ⊢
  omega

/-- `re.sub(r'(\d+)\.\s+<b>([^<]+)</b>', r'• <b>\2</b>', text)`. -/
def numSub2 (l : List Char) : List Char :=
  match l with
  | [] => []
  | c :: t =>
    if c.isDigit then
      if h : (numTail2 ((c :: t).dropWhile Char.isDigit)).isSome = true then
        let p := (numTail2 ((c :: t).dropWhile Char.isDigit)).getD ([], [])
        '•' :: ' ' :: '<' :: 'b' :: '>' :: (p.1 ++ '<' :: '/' :: 'b' :: '>' :: numSub2 p.2)
      else c :: numSub2 t
    else c :: numSub2 t
termination_by l.length
decreasing_by
  · exact numSub2_dec _ _ (by assumption)
  · simp
  · simp

/-- `format_response` (lines 315-349): bold substitution; if the text then
contains `<br>`, collapse runs of three or more `<br>`s and return;
otherwise apply the bullet re-join when a `•` is present, then the two
numbered-list substitutions. -/
def format_response (text : String) : String :=
  let t1 := boldSub text.data
  if listIsInfixOf ('<' :: 'b' :: 'r' :: '>' :: []) t1 then
    ⟨collapseBr t1⟩
  else
    let t2 := if t1.contains '•' then bulletize t1 else t1
    ⟨numSub2 (numSub1 t2)⟩

/-! ## Canned texts (app.py) -/

/-- Line 114. -/
def greeting_message : String := "Hello! How can I help you today?"

/-- Lines 130-138 and 142-150 (the two occurrences are identical). -/
def violence_message : String :=
  "⚠️ **This is serious.** Physical violence at work is illegal and unacceptable.\n\nPlease take action immediately:\n• Document everything (dates, witnesses, injuries)\n• Report to HR or higher management NOW\n• Contact workplace violence hotline: 1-800-799-7233\n• If you're in immediate danger, call 911\n\nThis isn't a communication issue — it's workplace abuse. I can't coach you through this, but I strongly urge you to protect yourself and report this."

/-- Lines 155-161. -/
def harm_message : String :=
  "⚠️ I'm concerned about what you've shared. If you're in immediate danger or witnessing illegal activity, please contact:\n\n• Emergency Services: 911\n• National Suicide Prevention Lifeline: 988\n• Workplace Violence Hotline: 1-800-799-7233\n\nI'm designed to help with workplace communication challenges, not crisis or safety situations. Please reach out to professionals who can provide proper support."

/-- Line 166. -/
def health_message : String :=
  "I'm specifically designed for workplace communication challenges. For health concerns, please consult a medical professional. Can we focus on a work-related communication or teamwork challenge instead?"

/-- Line 313. -/
def apology_message : String :=
  "Sorry, I'm having trouble generating a response right now. Please try again."

/-- Line 386. -/
def limit_message : String :=
  "You've reached the free message limit (10 messages). Upgrade to Premium for unlimited conversations! 🚀"

/-- Line 434. -/
def tone_ask_message : String :=
  "Before I help you with this, how would you like me to respond?"

/-- Line 455. -/
def clarify_message : String :=
  "Could you tell me a bit more about what's going on?"

/-! ## Keyword lists (app.py) -/

/-- Line 111 (`generate_response`). -/
def greeting_words_gen : List String :=
  ["hi", "hello", "hey", "hii", "hiii", "sup", "yo", "helo", "hola"]

/-- Line 118. -/
def violence_keywords : List String :=
  ["hit", "punch", "slap", "kick", "physical violence", "physically hurt",
   "assault", "attack", "threatened with violence"]

/-- Line 119. -/
def workload_context : List String :=
  ["workload", "work load", "tasks", "deadline", "pressure", "stress", "overwhelm"]

/-- Line 128. -/
def physical_indicators : List String :=
  ["physically", "hit me", "hurt me", "threatened", "violence"]

/-- Line 153. -/
def harmful_keywords : List String :=
  ["kill", "murder", "suicide", "weapon", "gun", "knife", "blood", "stab",
   "threat", "harass"]

/-- Line 164. -/
def health_keywords : List String :=
  ["headache", "sick", "pain", "fever", "medication", "doctor", "hospital"]

/-- Line 425 (`chat`). -/
def greeting_words_chat : List String :=
  ["hi", "hello", "hey", "hii", "hiii", "sup", "yo", "howdy"]

/-- The greeting words recognized by both the chat-level list (line 425)
and the generation-level list (line 111): their intersection. -/
def common_greeting_words : List String :=
  ["hi", "hello", "hey", "hii", "hiii", "sup", "yo"]

/-- Line 413: lowercased user messages skipped when recovering the user's
problem statement after a tone selection. -/
def tone_skip_phrases : List String :=
  ["hi", "hello", "hey", "hii", "hiii", "sup", "yo", "professional", "casual",
   "before i help you with this, how would you like me to respond?"]

/-- Line 400. -/
def tone_labels : List String := ["Professional", "Casual"]

/-! ## External collaborators -/

/-- Outcome of a call into an external SDK: a returned value or a raised
exception (the exception payload is irrelevant to the control flow). -/
inductive PyOutcome (α : Type) where
  | ok (val : α)
  | exn
deriving DecidableEq, Repr

/-- A Qdrant search result: `payload` is `none` when the attribute is
missing or falsy; otherwise the optional `text` and `page_content` keys. -/
structure QdrantHit where
  payload_text : Option String
  payload_page_content : Option String
  payload_present : Bool
deriving DecidableEq, Repr

/-- Lines 94-98: `payload.get('text', '') or payload.get('page_content', '')`,
kept only when non-empty and the payload is present. -/
def hitText (h : QdrantHit) : Option String :=
  if h.payload_present = false then none
  else
    let t := (h.payload_text.getD "")
    let t2 := if t ≠ "" then t else h.payload_page_content.getD ""
    if t2 ≠ "" then some t2 else none

/-- `get_relevant_context` (lines 71-105): missing client or any exception
from the embedding/search pipeline yields the sentinel; otherwise the
non-empty payload texts joined by blank lines, or the no-result sentinel. -/
def get_relevant_context (qdrant_client : Option Unit)
    (search : PyOutcome (List QdrantHit)) : String :=
  match qdrant_client with
  | none => "No context available."
  | some _ =>
    match search with
    | .exn => "No context available."
    | .ok results =>
      let context_parts := results.filterMap hitText
      if context_parts.isEmpty then "No relevant context found."
      else String.intercalate "\n\n" context_parts

/-! ## `generate_response` (app.py lines 107-313) -/

/-- The deterministic dispatch at the head of `generate_response`: the
greeting short-circuit and the three safety-keyword checks, in source
order; `.llmCall` means control reaches the `chat.completions.create`
call. -/
inductive GenAction where
  | canned (text : String)
  | llmCall
deriving DecidableEq, Repr

def generate_dispatch (user_message : String) (chat_length : Nat) : GenAction :=
  if greeting_words_gen.contains (pyStrip (pyLower user_message)) = true ∧ chat_length ≤ 1 then
    .canned greeting_message
  else
    let lmsg := (pyLower user_message).data
    let has_violence_keyword := anyKeyword violence_keywords lmsg
    let has_workload_context := anyKeyword workload_context lmsg
    if containsSub "beat" lmsg = true ∧ has_workload_context = false ∧
        anyKeyword physical_indicators lmsg = true then
      .canned violence_message
    else if has_violence_keyword = true ∧ has_workload_context = false then
      .canned violence_message
    else if anyKeyword harmful_keywords lmsg = true then
      .canned harm_message
    else if anyKeyword health_keywords lmsg = true then
      .canned health_message
    else
      .llmCall

/-- `generate_response`: returns the reply text together with a flag
recording whether the language-model call was reached.  The `context`,
`chat_history` and `tone` arguments only shape the prompt handed to the
opaque model call (`llm`); on an exception anywhere in the `try` block the
static apology is returned (line 313). -/
def generate_response (user_message : String) (context : String)
    (chat_history : String) (tone : Option String) (chat_length : Nat)
    (llm : PyOutcome String) : String × Bool :=
  match generate_dispatch user_message chat_length with
  | .canned t => (t, false)
  | .llmCall =>
    match llm with
    | .ok raw => (format_response (pyStrip raw), true)
    | .exn => (apology_message, true)

/-! ## Session state and the `/api/chat` endpoint (app.py lines 363-521) -/

/-- One stored exchange (lines 440-444 / 483-487). -/
structure Exchange where
  user : String
  ai : String
  timestamp : String
deriving DecidableEq, Repr

/-- The per-session Flask state: `session['chat_history']` and
`session['tone']` (absent tone is `none`). -/
structure SessionState where
  chat_history : List Exchange
  tone : Option String
deriving DecidableEq, Repr

def emptySession : SessionState := { chat_history := [], tone := none }

/-- The environment of one request: whether the two service clients are
available (after the re-initialization attempt of lines 377-380), the
outcome of the retrieval pipeline, the outcome of the model call, and the
current timestamp. -/
structure ChatEnv where
  servicesUp : Bool
  search : PyOutcome (List QdrantHit)
  llm : PyOutcome String
  now : String

/-- The JSON response plus instrumentation: `status` is the HTTP status;
`limit_reached` is the flag of the limit response (absent elsewhere, i.e.
`false`); `calledRetrieval` records whether `get_relevant_context` was
invoked; `genQuery` is the `user_message` argument handed to
`generate_response` (`none` when generation was not invoked);
`calledGeneration` records whether the language-model call itself was
reached inside `generate_response`. -/
structure ChatOutcome where
  status : Nat
  response : String
  quick_replies : List String
  limit_reached : Bool
  success : Bool
  calledRetrieval : Bool
  calledGeneration : Bool
  genQuery : Option String
  state : SessionState
deriving DecidableEq, Repr

/-- Lines 409-414: the user messages of the stored history whose lowercase
form is not a greeting, tone label, or the tone-ask text. -/
def substantive_user_messages (history : List Exchange) : List String :=
  history.filterMap (fun h =>
    if tone_skip_phrases.contains (pyLower h.user) then none else some h.user)

/-- Line 397: the prompt context built from the last four exchanges. -/
def chat_history_text (history : List Exchange) : String :=
  String.intercalate "\n"
    ((history.drop (history.length - 4)).map (fun h => "User: " ++ h.user ++ "\nAI: " ++ h.ai))

/-- The `/api/chat` handler (lines 363-521) as a pure transition function.
Entry: strip the message, reject empty (400); re-initialize services or
fail (503); message-limit check; retrieval; tone-selection handling with
effective-query recovery; greeting / meaningfulness classification; the
tone-ask and clarify branches; otherwise generation, history append, tone
re-save and the quick-reply computation. -/
def chat (st : SessionState) (message : String) (env : ChatEnv) : ChatOutcome :=
  let user_message := pyStrip message
  let original_user_message := user_message
  if user_message = "" then
    { status := 400, response := "Message cannot be empty", quick_replies := [],
      limit_reached := false, success := false, calledRetrieval := false,
      calledGeneration := false, genQuery := none, state := st }
  else if env.servicesUp = false then
    { status := 503, response := "Services unavailable. Please try again later.",
      quick_replies := [], limit_reached := false, success := false,
      calledRetrieval := false, calledGeneration := false, genQuery := none, state := st }
  else
    let current_count := st.chat_history.length
    if current_count ≥ 10 then
      { status := 200, response := limit_message, quick_replies := [],
        limit_reached := true, success := true, calledRetrieval := false,
        calledGeneration := false, genQuery := none, state := st }
    else
      let context := get_relevant_context (some ()) env.search
      let history := st.chat_history
      let chat_history := chat_history_text history
      -- lines 399-419: tone selection and effective-query recovery
      let toneSelected := tone_labels.contains (pyStrip user_message)
      let st1 := if toneSelected then { st with tone := some (pyStrip user_message) } else st
      let user_message2 :=
        if toneSelected then
          match (substantive_user_messages history).getLast? with
          | some q => q
          | none => user_message
        else user_message
      let selected_tone := st1.tone
      let is_greeting := greeting_words_chat.contains (pyStrip (pyLower user_message2))
      let word_count := pyWordCount user_message2
      let is_meaningful_query := 3 ≤ word_count
      if selected_tone = none ∧ is_greeting = false ∧ is_meaningful_query then
        let ex : Exchange :=
          { user := original_user_message, ai := tone_ask_message, timestamp := env.now }
        { status := 200, response := tone_ask_message,
          quick_replies := ["Professional", "Casual"], limit_reached := false,
          success := true, calledRetrieval := true, calledGeneration := false,
          genQuery := none, state := { st1 with chat_history := history ++ [ex] } }
      else if selected_tone = none ∧ is_greeting = false ∧ ¬is_meaningful_query then
        let ex : Exchange :=
          { user := original_user_message, ai := clarify_message, timestamp := env.now }
        { status := 200, response := clarify_message, quick_replies := [],
          limit_reached := false, success := true, calledRetrieval := true,
          calledGeneration := false, genQuery := none,
          state := { st1 with chat_history := history ++ [ex] } }
      else
        let current_chat_length := history.length + 1
        let gen := generate_response user_message2 context chat_history selected_tone
          current_chat_length env.llm
        let ai_response := gen.1
        let ex : Exchange :=
          { user := original_user_message, ai := ai_response, timestamp := env.now }
        let st2 := { st1 with chat_history := history ++ [ex] }
        let is_safety_warning :=
          ("⚠️".data.isPrefixOf ai_response.data) ||
            containsSub "call 911" (pyLower ai_response).data
        let st3 :=
          if tone_labels.contains (pyStrip original_user_message) then
            { st2 with tone := some (pyStrip original_user_message) }
          else st2
        let quick_replies : List String := if is_safety_warning then [] else []
        { status := 200, response := ai_response, quick_replies := quick_replies,
          limit_reached := false, success := true, calledRetrieval := true,
          calledGeneration := gen.2, genQuery := some user_message2, state := st3 }

/-- The response of `/api/clear`. -/
structure ClearOutcome where
  success : Bool
  message : String
deriving DecidableEq, Repr

/-- `clear_history` (lines 529-537): empty the exchange list, delete the
tone, report success. -/
def clear_history (st : SessionState) : SessionState × ClearOutcome :=
  ({ chat_history := [], tone := none }, { success := true, message := "Chat history cleared" })

/-- A sequence of chat requests applied from a starting state. -/
def chatRun (st : SessionState) : List (String × ChatEnv) → SessionState
  | [] => st
  | (m, env) :: rest => chatRun (chat st m env).state rest

/-! ## Concrete fixtures used to evaluate the model on closed inputs -/

/-- An environment with both collaborators initialized but both external
calls failing, so every reply is decided by the deterministic layer. -/
def probeEnv : ChatEnv :=
  { servicesUp := true, search := .exn, llm := .exn, now := "2025-01-01T00:00:00" }

/-- A session that has already stored ten exchanges. -/
def limitState : SessionState :=
  { chat_history := List.replicate 10
      { user := "u", ai := "a", timestamp := "2025-01-01T00:00:00" },
    tone := some "Casual" }

/-- A session with a substantive problem statement stored and no tone. -/
def pendingToneState : SessionState :=
  { chat_history :=
      [ { user := "hi", ai := greeting_message, timestamp := "2025-01-01T00:00:00" },
        { user := "My boss ignores my emails", ai := tone_ask_message,
          timestamp := "2025-01-01T00:00:00" } ],
    tone := none }

/-- A session whose tone is already persisted as Professional. -/
def professionalState : SessionState :=
  { chat_history :=
      [ { user := "My boss ignores my emails", ai := tone_ask_message,
          timestamp := "2025-01-01T00:00:00" } ],
    tone := some "Professional" }

/-! # Theorems -/

/-! ## General lemmas about the string helpers -/

theorem head?_dropWhile_false (p : Char → Bool) (l : List Char) :
    ∀ c, (l.dropWhile p).head? = some c → p c = false := by
  induction l with
  | nil => simp
  | cons a t ih =>
    intro c h
    by_cases hp : p a = true
    · rw [List.dropWhile_cons_of_pos hp] at h
      exact ih c h
    · rw [List.dropWhile_cons_of_neg hp] at h
      simp only [List.head?_cons, Option.some.injEq] at h
      rw [← h]
      exact Bool.eq_false_iff.mpr hp

theorem dropWhile_eq_self_of_head (p : Char → Bool) (l : List Char)
    (h : ∀ c, l.head? = some c → p c = false) : l.dropWhile p = l := by
  cases l with
  | nil => rfl
  | cons a t =>
    have ha := h a rfl
    rw [List.dropWhile_cons_of_neg (by rw [ha]; exact Bool.false_ne_true)]

theorem getLast?_dropWhile (p : Char → Bool) (l : List Char)
    (hne : l.dropWhile p ≠ []) : (l.dropWhile p).getLast? = l.getLast? := by
  obtain ⟨t, ht⟩ := List.dropWhile_suffix (l := l) (p := p)
  calc (l.dropWhile p).getLast? = (t ++ l.dropWhile p).getLast? :=
        (List.getLast?_append_of_ne_nil t hne).symm
    _ = l.getLast? := by rw [ht]

theorem pyStripList_idem (l : List Char) : pyStripList (pyStripList l) = pyStripList l := by
  unfold pyStripList
  set A := l.dropWhile pyIsSpace with hA
  set X := A.reverse.dropWhile pyIsSpace with hX
  by_cases hXe : X = []
  · rw [hXe]
    rfl
  · have h1 : X.reverse.dropWhile pyIsSpace = X.reverse := by
      apply dropWhile_eq_self_of_head
      intro c hc
      rw [List.head?_reverse] at hc
      have h2 : X.getLast? = A.reverse.getLast? := getLast?_dropWhile pyIsSpace A.reverse hXe
      rw [h2, List.getLast?_reverse] at hc
      exact head?_dropWhile_false pyIsSpace l c hc
    rw [h1, List.reverse_reverse]
    have h3 : X.dropWhile pyIsSpace = X := by
      apply dropWhile_eq_self_of_head
      intro c hc
      exact head?_dropWhile_false pyIsSpace A.reverse c hc
    rw [h3]

theorem pyStrip_idem (s : String) : pyStrip (pyStrip s) = pyStrip s := by
  unfold pyStrip
  exact congrArg String.mk (pyStripList_idem s.data)

/-! ## Branch-analysis lemmas for `chat` -/

theorem chat_state_succ (st : SessionState) (m : String) (env : ChatEnv) :
    (chat st m env).state.chat_history.length ≤ st.chat_history.length + 1 := by
  simp only [chat]
  split
  · simp
  split
  · simp
  split
  · simp
  split
  · simp
  split
  · simp
  · split <;> simp

theorem chat_state_frozen (st : SessionState) (m : String) (env : ChatEnv)
    (h : 10 ≤ st.chat_history.length) : (chat st m env).state = st := by
  simp only [chat]
  split
  · rfl
  split
  · rfl
  rfl

theorem tone_labels_not_contains (x : String)
    (h1 : x ≠ "Professional") (h2 : x ≠ "Casual") :
    tone_labels.contains x = false := by
  simp only [tone_labels, List.contains_cons]
  simp [h1, h2]

theorem chat_tone_preserved (st : SessionState) (m : String) (env : ChatEnv)
    (hnl : pyStrip m ≠ "Professional") (hnc : pyStrip m ≠ "Casual") :
    (chat st m env).state.tone = st.tone := by
  have hsel : tone_labels.contains (pyStrip (pyStrip m)) = false := by
    rw [pyStrip_idem]
    exact tone_labels_not_contains (pyStrip m) hnl hnc
  simp only [chat]
  split
  · rfl
  split
  · rfl
  split
  · rfl
  simp only [hsel, Bool.false_eq_true, if_false, ite_false]
  split
  · simp
  split
  · simp
  · simp [hsel]

/-! ## Claim theorems -/

/-- C1: for every session whose stored exchange list already has length at
least 10, a chat call with a non-empty message while services are available
returns the fixed upgrade-prompt limit message with `limit_reached = true`,
an empty quick-reply list and `success = true`, and performs neither the
retrieval call nor any generation call. -/
theorem chat_limit_lock (st : SessionState) (m : String) (env : ChatEnv)
    (hm : pyStrip m ≠ "") (hs : env.servicesUp = true)
    (hlen : 10 ≤ st.chat_history.length) :
    (chat st m env).response = limit_message ∧
    (chat st m env).limit_reached = true ∧
    (chat st m env).quick_replies = [] ∧
    (chat st m env).success = true ∧
    (chat st m env).calledRetrieval = false ∧
    (chat st m env).calledGeneration = false ∧
    (chat st m env).genQuery = none := by
  simp only [chat]
  rw [if_neg hm]
  rw [if_neg (by rw [hs]; simp)]
  rw [if_pos hlen]
  exact ⟨rfl, rfl, rfl, rfl, rfl, rfl, rfl⟩

/-- Witness for C1 at a concrete ten-exchange session. -/
theorem chat_limit_lock_app :
    (chat limitState "one more question" probeEnv).response = limit_message ∧
    (chat limitState "one more question" probeEnv).limit_reached = true ∧
    (chat limitState "one more question" probeEnv).quick_replies = [] ∧
    (chat limitState "one more question" probeEnv).success = true ∧
    (chat limitState "one more question" probeEnv).calledRetrieval = false ∧
    (chat limitState "one more question" probeEnv).calledGeneration = false ∧
    (chat limitState "one more question" probeEnv).genQuery = none :=
  chat_limit_lock limitState "one more question" probeEnv (by decide) (by decide) (by decide)

/-- C8: clearing any session yields an empty exchange list (count 0), an
unset tone, and a success response. -/
theorem clear_resets (st : SessionState) :
    (clear_history st).1.chat_history = [] ∧
    (clear_history st).1.chat_history.length = 0 ∧
    (clear_history st).1.tone = none ∧
    (clear_history st).2.success = true :=
  ⟨rfl, rfl, rfl, rfl⟩

/-- C9: an absent retrieval client or an exception in the retrieval
pipeline yields the sentinel string instead of a failure, and an exception
in the generation call yields the static apology string. -/
theorem degraded_fallbacks (client : Option Unit) (search : PyOutcome (List QdrantHit))
    (m ctx hist : String) (tone : Option String) (n : Nat)
    (hfail : client = none ∨ search = PyOutcome.exn)
    (hllm : generate_dispatch m n = GenAction.llmCall) :
    get_relevant_context client search = "No context available." ∧
    (generate_response m ctx hist tone n PyOutcome.exn).1 = apology_message := by
  constructor
  · rcases hfail with h | h
    · rw [h]
      rfl
    · rw [h]
      cases client <;> rfl
  · unfold generate_response
    rw [hllm]

/-- Witness for C9 at a concrete input. -/
theorem degraded_fallbacks_app :
    get_relevant_context none (PyOutcome.ok []) = "No context available." ∧
    (generate_response "tell me about my career growth" "" ""
      (some "Casual") 3 PyOutcome.exn).1 = apology_message :=
  degraded_fallbacks none (PyOutcome.ok []) "tell me about my career growth" "" ""
    (some "Casual") 3 (Or.inl rfl) (by decide)

/-- C10: each chat call appends at most one exchange; once ten exchanges are
stored a call leaves the whole session state (history and tone) unchanged;
consequently a session grown from an empty history by any sequence of chat
calls never stores more than ten exchanges. -/
theorem history_never_exceeds_limit (st : SessionState) (m : String) (env : ChatEnv)
    (msgs : List (String × ChatEnv)) :
    ((chat st m env).state.chat_history.length ≤ st.chat_history.length + 1) ∧
    (10 ≤ st.chat_history.length → (chat st m env).state = st) ∧
    (chatRun emptySession msgs).chat_history.length ≤ 10 := by
  refine ⟨chat_state_succ st m env, chat_state_frozen st m env, ?_⟩
  have key : ∀ (ms : List (String × ChatEnv)) (s : SessionState),
      s.chat_history.length ≤ 10 → (chatRun s ms).chat_history.length ≤ 10 := by
    intro ms
    induction ms with
    | nil =>
      intro s h
      simpa [chatRun] using h
    | cons p rest ih =>
      intro s h
      obtain ⟨pm, pe⟩ := p
      rw [chatRun]
      apply ih
      rcases Nat.lt_or_ge s.chat_history.length 10 with h10 | h10
      · have h1 := chat_state_succ s pm pe
        omega
      · have h2 := chat_state_frozen s pm pe h10
        rw [h2]
        exact h
  exact key msgs emptySession (by simp [emptySession])

/-- Witness for C10 at a concrete session and request list. -/
theorem history_never_exceeds_limit_app :
    ((chat limitState "again" probeEnv).state.chat_history.length ≤
      limitState.chat_history.length + 1) ∧
    (10 ≤ limitState.chat_history.length → (chat limitState "again" probeEnv).state = limitState) ∧
    (chatRun emptySession [("hi", probeEnv), ("my boss ignores me", probeEnv)]).chat_history.length ≤ 10 :=
  history_never_exceeds_limit limitState "again" probeEnv [("hi", probeEnv), ("my boss ignores me", probeEnv)]

/-- C3: a chat call whose message is exactly a tone label, in a session
below the message limit whose history contains a substantive prior user
message (one whose lowercase form is not a greeting, tone label, or the
tone-ask text), persists the label as the session tone and hands the most
recent such prior message, not the literal label, to `generate_response`. -/
theorem tone_select_uses_prior_query (st : SessionState) (m : String) (env : ChatEnv)
    (q : String) (hs : env.servicesUp = true)
    (hlbl : pyStrip m = "Professional" ∨ pyStrip m = "Casual")
    (hlen : st.chat_history.length < 10)
    (hq : (substantive_user_messages st.chat_history).getLast? = some q) :
    (chat st m env).state.tone = some (pyStrip m) ∧
    (chat st m env).genQuery = some q := by
  have hm : pyStrip m ≠ "" := by
    rcases hlbl with h | h <;> rw [h] <;> decide
  have hpp : pyStrip (pyStrip m) = pyStrip m := pyStrip_idem m
  have hsel : tone_labels.contains (pyStrip (pyStrip m)) = true := by
    rw [hpp]
    rcases hlbl with h | h <;> rw [h] <;> decide
  simp only [chat]
  rw [if_neg hm]
  rw [if_neg (by rw [hs]; simp)]
  rw [if_neg (by omega)]
  simp only [hsel, eq_self_iff_true, if_true, hq]
  rw [if_neg (by simp)]
  rw [if_neg (by simp)]
  constructor
  · simp only [hsel, eq_self_iff_true, if_true]
    rw [hpp]
  · rfl

/-- Witness for C3: after a stored substantive message, replying with the
bare label Casual stores the tone and generates for the stored problem. -/
theorem tone_select_uses_prior_query_app :
    (chat pendingToneState "Casual" probeEnv).state.tone = some (pyStrip "Casual") ∧
    (chat pendingToneState "Casual" probeEnv).genQuery = some "My boss ignores my emails" :=
  tone_select_uses_prior_query pendingToneState "Casual" probeEnv "My boss ignores my emails"
    (by decide) (by decide) (by decide) (by decide)

theorem chat_tone_cases (st : SessionState) (m : String) (env : ChatEnv) :
    (chat st m env).state.tone = st.tone ∨
    (chat st m env).state.tone = some (pyStrip (pyStrip m)) := by
  simp only [chat]
  split
  · exact Or.inl rfl
  split
  · exact Or.inl rfl
  split
  · exact Or.inl rfl
  repeat' split
  all_goals first
    | exact Or.inl rfl
    | exact Or.inr rfl

/-- C5 counterexample: in a session whose tone is persisted as
Professional, a later chat message that is exactly the other label
overwrites the stored tone without any call to the clear endpoint. -/
theorem tone_overwritten_by_second_label :
    professionalState.tone = some "Professional" ∧
    (chat professionalState "Casual" probeEnv).state.tone = some "Casual" ∧
    (chat professionalState "Casual" probeEnv).state.tone ≠ some "Professional" := by
  decide

/-- C5 corrected: once a tone is persisted, every chat call whose message
is not exactly a bare tone label leaves the stored tone unchanged, and no
chat call whatsoever unsets it; only a bare tone-label message can change
it (to the label), and only the clear endpoint removes it. -/
theorem tone_persistence_amended (st : SessionState) (m : String) (env : ChatEnv)
    (t : String) (ht : st.tone = some t)
    (hnl : pyStrip m ≠ "Professional") (hnc : pyStrip m ≠ "Casual") :
    (chat st m env).state.tone = some t ∧
    (∀ (m2 : String) (env2 : ChatEnv), (chat st m2 env2).state.tone ≠ none) := by
  constructor
  · rw [chat_tone_preserved st m env hnl hnc, ht]
  · intro m2 env2
    rcases chat_tone_cases st m2 env2 with h | h
    · rw [h, ht]
      exact fun hc => by cases hc
    · rw [h]
      exact fun hc => by cases hc

/-- Witness for the corrected C5. -/
theorem tone_persistence_amended_app :
    (chat professionalState "my coworker interrupts me" probeEnv).state.tone = some "Professional" ∧
    (∀ (m2 : String) (env2 : ChatEnv),
      (chat professionalState m2 env2).state.tone ≠ none) :=
  tone_persistence_amended professionalState "my coworker interrupts me" probeEnv
    "Professional" rfl (by decide) (by decide)

/-- C6 counterexample: "helo" is a bare greeting word of the
`generate_response` greeting list, yet on an empty session the endpoint
answers with the clarifying question, not the fixed greeting (the
chat-level greeting list does not contain it, so the clarify branch fires
first). -/
theorem greeting_word_not_greeted :
    greeting_words_gen.contains "helo" = true ∧
    (chat emptySession "helo" probeEnv).response = clarify_message ∧
    (chat emptySession "helo" probeEnv).response ≠ greeting_message := by
  decide

/-- C6 corrected: on an empty session with no tone, a message whose
lowercased, stripped form is one of the greeting words recognized by both
greeting lists (hi, hello, hey, hii, hiii, sup, yo) yields the fixed
greeting with no quick replies and no language-model call; the words on
which the two lists disagree (howdy; helo, hola) do not behave this way. -/
theorem greeting_first_turn_amended (st : SessionState) (m : String) (env : ChatEnv)
    (hs : env.servicesUp = true) (hh : st.chat_history = []) (htn : st.tone = none)
    (hg : common_greeting_words.contains (pyStrip (pyLower (pyStrip m))) = true) :
    (chat st m env).response = greeting_message ∧
    (chat st m env).quick_replies = [] ∧
    (chat st m env).calledGeneration = false := by
  have hm : pyStrip m ≠ "" := by
    intro he
    rw [he] at hg
    exact absurd hg (by decide)
  have hnl : pyStrip m ≠ "Professional" := by
    intro he
    rw [he] at hg
    exact absurd hg (by decide)
  have hnc : pyStrip m ≠ "Casual" := by
    intro he
    rw [he] at hg
    exact absurd hg (by decide)
  have hsel : tone_labels.contains (pyStrip (pyStrip m)) = false := by
    rw [pyStrip_idem]
    exact tone_labels_not_contains (pyStrip m) hnl hnc
  have hmem : pyStrip (pyLower (pyStrip m)) = "hi" ∨ pyStrip (pyLower (pyStrip m)) = "hello" ∨
      pyStrip (pyLower (pyStrip m)) = "hey" ∨ pyStrip (pyLower (pyStrip m)) = "hii" ∨
      pyStrip (pyLower (pyStrip m)) = "hiii" ∨ pyStrip (pyLower (pyStrip m)) = "sup" ∨
      pyStrip (pyLower (pyStrip m)) = "yo" := by
    have h1 := List.mem_of_elem_eq_true hg
    simpa [common_greeting_words] using h1
  have hgen : greeting_words_gen.contains (pyStrip (pyLower (pyStrip m))) = true := by
    rcases hmem with h | h | h | h | h | h | h <;> rw [h] <;> decide
  have hgc : greeting_words_chat.contains (pyStrip (pyLower (pyStrip m))) = true := by
    rcases hmem with h | h | h | h | h | h | h <;> rw [h] <;> decide
  simp only [chat]
  rw [if_neg hm]
  rw [if_neg (by rw [hs]; simp)]
  rw [if_neg (by rw [hh]; simp)]
  simp only [hsel, Bool.false_eq_true, if_false]
  rw [if_neg (fun hc => by
    have h2 := hc.2.1
    rw [hgc] at h2
    cases h2)]
  rw [if_neg (fun hc => by
    have h2 := hc.2.1
    rw [hgc] at h2
    cases h2)]
  have hdisp : generate_dispatch (pyStrip m) (st.chat_history.length + 1) =
      GenAction.canned greeting_message := by
    unfold generate_dispatch
    rw [if_pos ⟨hgen, by rw [hh]; simp⟩]
  constructor
  · show (generate_response (pyStrip m) _ _ _ _ _).1 = greeting_message
    unfold generate_response
    rw [hdisp]
  constructor
  · show (if _ then ([] : List String) else []) = []
    split <;> rfl
  · show (generate_response (pyStrip m) _ _ _ _ _).2 = false
    unfold generate_response
    rw [hdisp]

/-- Witness for the corrected C6. -/
theorem greeting_first_turn_amended_app :
    (chat emptySession "hi" probeEnv).response = greeting_message ∧
    (chat emptySession "hi" probeEnv).quick_replies = [] ∧
    (chat emptySession "hi" probeEnv).calledGeneration = false :=
  greeting_first_turn_amended emptySession "hi" probeEnv (by decide) rfl rfl (by decide)

/-- C4 counterexample: in a fresh session with no tone, the one-word
message "Professional" is not a greeting and has fewer than three words,
so the claim predicts the clarifying question with no generation call; the
code instead treats it as a tone selection and invokes generation with the
literal label as the query. -/
theorem short_label_not_clarified :
    pyWordCount (pyStrip "Professional") < 3 ∧
    emptySession.tone = none ∧
    (chat emptySession "Professional" probeEnv).genQuery = some "Professional" ∧
    (chat emptySession "Professional" probeEnv).calledGeneration = true ∧
    (chat emptySession "Professional" probeEnv).response ≠ clarify_message := by
  decide

/-- C4 corrected: in a session with no tone set and fewer than ten stored
exchanges, for a non-empty message that is neither a chat-level greeting
word nor exactly a bare tone label: with at least three words the reply is
the fixed tone-selection question with quick replies Professional and
Casual, with fewer than three words the reply is the fixed clarifying
question with no quick replies; in both cases `generate_response` is not
invoked and the exchange is appended to the stored history. -/
theorem no_tone_dispatch_amended (st : SessionState) (m : String) (env : ChatEnv)
    (hs : env.servicesUp = true) (htn : st.tone = none)
    (hlen : st.chat_history.length < 10) (hm : pyStrip m ≠ "")
    (hnl : pyStrip m ≠ "Professional") (hnc : pyStrip m ≠ "Casual")
    (hng : greeting_words_chat.contains (pyStrip (pyLower (pyStrip m))) = false) :
    (3 ≤ pyWordCount (pyStrip m) →
      (chat st m env).response = tone_ask_message ∧
      (chat st m env).quick_replies = ["Professional", "Casual"] ∧
      (chat st m env).genQuery = none ∧
      (chat st m env).calledGeneration = false ∧
      (chat st m env).state.chat_history = st.chat_history ++
        [{ user := pyStrip m, ai := tone_ask_message, timestamp := env.now }]) ∧
    (pyWordCount (pyStrip m) < 3 →
      (chat st m env).response = clarify_message ∧
      (chat st m env).quick_replies = [] ∧
      (chat st m env).genQuery = none ∧
      (chat st m env).calledGeneration = false ∧
      (chat st m env).state.chat_history = st.chat_history ++
        [{ user := pyStrip m, ai := clarify_message, timestamp := env.now }]) := by
  have hsel : tone_labels.contains (pyStrip (pyStrip m)) = false := by
    rw [pyStrip_idem]
    exact tone_labels_not_contains (pyStrip m) hnl hnc
  simp only [chat]
  rw [if_neg hm]
  rw [if_neg (by rw [hs]; simp)]
  rw [if_neg (by omega)]
  simp only [hsel, Bool.false_eq_true, if_false]
  constructor
  · intro hwc
    rw [if_pos ⟨htn, hng, hwc⟩]
    exact ⟨rfl, rfl, rfl, rfl, rfl⟩
  · intro hwc
    rw [if_neg (fun hc => by omega)]
    rw [if_pos ⟨htn, hng, by omega⟩]
    exact ⟨rfl, rfl, rfl, rfl, rfl⟩

/-- Witness for the corrected C4, at a three-word and a two-word message. -/
theorem no_tone_dispatch_amended_app :
    (3 ≤ pyWordCount (pyStrip "my boss ignores me") →
      (chat emptySession "my boss ignores me" probeEnv).response = tone_ask_message ∧
      (chat emptySession "my boss ignores me" probeEnv).quick_replies = ["Professional", "Casual"] ∧
      (chat emptySession "my boss ignores me" probeEnv).genQuery = none ∧
      (chat emptySession "my boss ignores me" probeEnv).calledGeneration = false ∧
      (chat emptySession "my boss ignores me" probeEnv).state.chat_history =
        emptySession.chat_history ++
          [{ user := pyStrip "my boss ignores me", ai := tone_ask_message,
             timestamp := probeEnv.now }]) ∧
    (pyWordCount (pyStrip "my boss ignores me") < 3 →
      (chat emptySession "my boss ignores me" probeEnv).response = clarify_message ∧
      (chat emptySession "my boss ignores me" probeEnv).quick_replies = [] ∧
      (chat emptySession "my boss ignores me" probeEnv).genQuery = none ∧
      (chat emptySession "my boss ignores me" probeEnv).calledGeneration = false ∧
      (chat emptySession "my boss ignores me" probeEnv).state.chat_history =
        emptySession.chat_history ++
          [{ user := pyStrip "my boss ignores me", ai := clarify_message,
             timestamp := probeEnv.now }]) :=
  no_tone_dispatch_amended emptySession "my boss ignores me" probeEnv (by decide) rfl
    (by decide) (by decide) (by decide) (by decide) (by decide)

theorem dispatch_violence (msg : String) (n : Nat)
    (hg : ¬(greeting_words_gen.contains (pyStrip (pyLower msg)) = true ∧ n ≤ 1))
    (hv : anyKeyword violence_keywords (pyLower msg).data = true)
    (hw : anyKeyword workload_context (pyLower msg).data = false) :
    generate_dispatch msg n = GenAction.canned violence_message := by
  unfold generate_dispatch
  rw [if_neg hg]
  by_cases hb : containsSub "beat" (pyLower msg).data = true ∧
      anyKeyword workload_context (pyLower msg).data = false ∧
      anyKeyword physical_indicators (pyLower msg).data = true
  · rw [if_pos hb]
  · rw [if_neg hb, if_pos ⟨hv, hw⟩]

theorem dispatch_harm (msg : String) (n : Nat)
    (hg : ¬(greeting_words_gen.contains (pyStrip (pyLower msg)) = true ∧ n ≤ 1))
    (hb : ¬(containsSub "beat" (pyLower msg).data = true ∧
      anyKeyword workload_context (pyLower msg).data = false ∧
      anyKeyword physical_indicators (pyLower msg).data = true))
    (hvx : ¬(anyKeyword violence_keywords (pyLower msg).data = true ∧
      anyKeyword workload_context (pyLower msg).data = false))
    (hh : anyKeyword harmful_keywords (pyLower msg).data = true) :
    generate_dispatch msg n = GenAction.canned harm_message := by
  unfold generate_dispatch
  rw [if_neg hg, if_neg hb, if_neg hvx, if_pos hh]

theorem dispatch_health (msg : String) (n : Nat)
    (hg : ¬(greeting_words_gen.contains (pyStrip (pyLower msg)) = true ∧ n ≤ 1))
    (hb : ¬(containsSub "beat" (pyLower msg).data = true ∧
      anyKeyword workload_context (pyLower msg).data = false ∧
      anyKeyword physical_indicators (pyLower msg).data = true))
    (hvx : ¬(anyKeyword violence_keywords (pyLower msg).data = true ∧
      anyKeyword workload_context (pyLower msg).data = false))
    (hhx : anyKeyword harmful_keywords (pyLower msg).data = false)
    (hd : anyKeyword health_keywords (pyLower msg).data = true) :
    generate_dispatch msg n = GenAction.canned health_message := by
  unfold generate_dispatch
  rw [if_neg hg, if_neg hb, if_neg hvx]
  rw [if_neg (by rw [hhx]; simp), if_pos hd]

/-- In a session with a persisted tone, below the limit, a non-label
message flows to `generate_response` with the stripped message as query;
when the dispatch is a canned text the endpoint returns it verbatim with
no quick replies and without reaching the model call. -/
theorem chat_gen_canned (st : SessionState) (m : String) (env : ChatEnv)
    (t : String) (X : String)
    (hs : env.servicesUp = true) (ht : st.tone = some t)
    (hlen : st.chat_history.length < 10) (hm : pyStrip m ≠ "")
    (hnl : pyStrip m ≠ "Professional") (hnc : pyStrip m ≠ "Casual")
    (hd : generate_dispatch (pyStrip m) (st.chat_history.length + 1) =
      GenAction.canned X) :
    (chat st m env).response = X ∧
    (chat st m env).quick_replies = [] ∧
    (chat st m env).calledGeneration = false := by
  have hsel : tone_labels.contains (pyStrip (pyStrip m)) = false := by
    rw [pyStrip_idem]
    exact tone_labels_not_contains (pyStrip m) hnl hnc
  simp only [chat]
  rw [if_neg hm]
  rw [if_neg (by rw [hs]; simp)]
  rw [if_neg (by omega)]
  simp only [hsel, Bool.false_eq_true, if_false]
  rw [if_neg (fun hc => by
    have h1 := hc.1
    rw [ht] at h1
    exact Option.noConfusion h1)]
  rw [if_neg (fun hc => by
    have h1 := hc.1
    rw [ht] at h1
    exact Option.noConfusion h1)]
  refine ⟨?_, ?_, ?_⟩
  · show (generate_response (pyStrip m) _ _ _ _ _).1 = X
    unfold generate_response
    rw [hd]
  · show (if _ then ([] : List String) else []) = []
    split <;> rfl
  · show (generate_response (pyStrip m) _ _ _ _ _).2 = false
    unfold generate_response
    rw [hd]

/-- C2 counterexample: the message "he threatened to stab me" contains
harmful-content keywords, yet on a fresh session with no tone the endpoint
answers with the tone-selection question and non-empty quick replies — the
safety checks sit inside `generate_response`, which the tone-ask branch
never reaches. -/
theorem safety_intercepted_by_tone_ask :
    anyKeyword harmful_keywords (pyLower (pyStrip "he threatened to stab me")).data = true ∧
    (chat emptySession "he threatened to stab me" probeEnv).response = tone_ask_message ∧
    (chat emptySession "he threatened to stab me" probeEnv).response ≠ harm_message ∧
    (chat emptySession "he threatened to stab me" probeEnv).quick_replies =
      ["Professional", "Casual"] := by
  decide

/-- C2 corrected: once a tone is persisted (and below the message limit,
for a non-empty message that is neither a bare tone label nor a first-turn
greeting word), a message matching a safety keyword set receives the
corresponding fixed disclosure text with empty quick replies and no model
call, with the source-order precedence violence > harm > health and the
workload-context exclusion. -/
theorem safety_dispatch_amended (st : SessionState) (m : String) (env : ChatEnv)
    (t : String) (hs : env.servicesUp = true) (ht : st.tone = some t)
    (hlen : st.chat_history.length < 10) (hm : pyStrip m ≠ "")
    (hnl : pyStrip m ≠ "Professional") (hnc : pyStrip m ≠ "Casual")
    (hgr : greeting_words_gen.contains (pyStrip (pyLower (pyStrip m))) = false ∨
      st.chat_history ≠ []) :
    ((anyKeyword violence_keywords (pyLower (pyStrip m)).data = true ∧
        anyKeyword workload_context (pyLower (pyStrip m)).data = false) →
      (chat st m env).response = violence_message ∧
      (chat st m env).quick_replies = [] ∧
      (chat st m env).calledGeneration = false) ∧
    ((anyKeyword harmful_keywords (pyLower (pyStrip m)).data = true ∧
        ¬(containsSub "beat" (pyLower (pyStrip m)).data = true ∧
          anyKeyword workload_context (pyLower (pyStrip m)).data = false ∧
          anyKeyword physical_indicators (pyLower (pyStrip m)).data = true) ∧
        ¬(anyKeyword violence_keywords (pyLower (pyStrip m)).data = true ∧
          anyKeyword workload_context (pyLower (pyStrip m)).data = false)) →
      (chat st m env).response = harm_message ∧
      (chat st m env).quick_replies = [] ∧
      (chat st m env).calledGeneration = false) ∧
    ((anyKeyword health_keywords (pyLower (pyStrip m)).data = true ∧
        anyKeyword harmful_keywords (pyLower (pyStrip m)).data = false ∧
        ¬(containsSub "beat" (pyLower (pyStrip m)).data = true ∧
          anyKeyword workload_context (pyLower (pyStrip m)).data = false ∧
          anyKeyword physical_indicators (pyLower (pyStrip m)).data = true) ∧
        ¬(anyKeyword violence_keywords (pyLower (pyStrip m)).data = true ∧
          anyKeyword workload_context (pyLower (pyStrip m)).data = false)) →
      (chat st m env).response = health_message ∧
      (chat st m env).quick_replies = [] ∧
      (chat st m env).calledGeneration = false) := by
  have hgr2 : ¬(greeting_words_gen.contains (pyStrip (pyLower (pyStrip m))) = true ∧
      st.chat_history.length + 1 ≤ 1) := by
    rcases hgr with h | h
    · intro hc
      rw [h] at hc
      exact Bool.noConfusion hc.1
    · intro hc
      have h2 := hc.2
      have hl0 : st.chat_history.length = 0 := by omega
      exact h (List.eq_nil_of_length_eq_zero hl0)
  refine ⟨?_, ?_, ?_⟩
  · intro ⟨hv, hw⟩
    exact chat_gen_canned st m env t violence_message hs ht hlen hm hnl hnc
      (dispatch_violence (pyStrip m) (st.chat_history.length + 1) hgr2 hv hw)
  · intro ⟨hh, hb, hvx⟩
    exact chat_gen_canned st m env t harm_message hs ht hlen hm hnl hnc
      (dispatch_harm (pyStrip m) (st.chat_history.length + 1) hgr2 hb hvx hh)
  · intro ⟨hd, hhx, hb, hvx⟩
    exact chat_gen_canned st m env t health_message hs ht hlen hm hnl hnc
      (dispatch_health (pyStrip m) (st.chat_history.length + 1) hgr2 hb hvx hhx hd)

/-- Witness for the corrected C2: with a persisted Professional tone the
same crisis message receives the fixed harm disclosure. -/
theorem safety_dispatch_amended_app :
    ((anyKeyword violence_keywords (pyLower (pyStrip "he threatened to stab me")).data = true ∧
        anyKeyword workload_context (pyLower (pyStrip "he threatened to stab me")).data = false) →
      (chat professionalState "he threatened to stab me" probeEnv).response = violence_message ∧
      (chat professionalState "he threatened to stab me" probeEnv).quick_replies = [] ∧
      (chat professionalState "he threatened to stab me" probeEnv).calledGeneration = false) ∧
    ((anyKeyword harmful_keywords (pyLower (pyStrip "he threatened to stab me")).data = true ∧
        ¬(containsSub "beat" (pyLower (pyStrip "he threatened to stab me")).data = true ∧
          anyKeyword workload_context (pyLower (pyStrip "he threatened to stab me")).data = false ∧
          anyKeyword physical_indicators (pyLower (pyStrip "he threatened to stab me")).data = true) ∧
        ¬(anyKeyword violence_keywords (pyLower (pyStrip "he threatened to stab me")).data = true ∧
          anyKeyword workload_context (pyLower (pyStrip "he threatened to stab me")).data = false)) →
      (chat professionalState "he threatened to stab me" probeEnv).response = harm_message ∧
      (chat professionalState "he threatened to stab me" probeEnv).quick_replies = [] ∧
      (chat professionalState "he threatened to stab me" probeEnv).calledGeneration = false) ∧
    ((anyKeyword health_keywords (pyLower (pyStrip "he threatened to stab me")).data = true ∧
        anyKeyword harmful_keywords (pyLower (pyStrip "he threatened to stab me")).data = false ∧
        ¬(containsSub "beat" (pyLower (pyStrip "he threatened to stab me")).data = true ∧
          anyKeyword workload_context (pyLower (pyStrip "he threatened to stab me")).data = false ∧
          anyKeyword physical_indicators (pyLower (pyStrip "he threatened to stab me")).data = true) ∧
        ¬(anyKeyword violence_keywords (pyLower (pyStrip "he threatened to stab me")).data = true ∧
          anyKeyword workload_context (pyLower (pyStrip "he threatened to stab me")).data = false)) →
      (chat professionalState "he threatened to stab me" probeEnv).response = health_message ∧
      (chat professionalState "he threatened to stab me" probeEnv).quick_replies = [] ∧
      (chat professionalState "he threatened to stab me" probeEnv).calledGeneration = false) :=
  safety_dispatch_amended professionalState "he threatened to stab me" probeEnv
    "Professional" (by decide) rfl (by decide) (by decide) (by decide) (by decide)
    (Or.inl (by decide))

/-! ## The collapse scanner: step lemmas -/

theorem collapseBr_nil : collapseBr [] = [] := by
  rw [collapseBr]

theorem collapseBr_cons_lt (c : Char) (t : List Char)
    (h : (brRun (c :: t)).1 < 3) : collapseBr (c :: t) = c :: collapseBr t := by
  rw [collapseBr]
  rw [if_neg (by omega)]

theorem collapseBr_cons_ge (c : Char) (t : List Char)
    (h : 3 ≤ (brRun (c :: t)).1) : collapseBr (c :: t) =
      '<' :: 'b' :: 'r' :: '>' :: '<' :: 'b' :: 'r' :: '>' :: collapseBr (brRun (c :: t)).2 := by
  rw [collapseBr]
  rw [if_pos h]

theorem brPre_cons_ne (c : Char) (t : List Char) (h : c ≠ '<') :
    brPre (c :: t) = false := by
  rw [brPre.eq_def]
  split
  · rename_i heq
    rw [List.cons.injEq] at heq
    exact absurd heq.1 h
  · rfl

theorem brRun_cons_pre (rest : List Char) :
    brRun ('<' :: 'b' :: 'r' :: '>' :: rest) =
      ((brRun (rest.dropWhile pyIsSpace)).1 + 1, (brRun (rest.dropWhile pyIsSpace)).2) := by
  rw [brRun]

theorem brRun_zero_of_not_pre (l : List Char) (h : brPre l = false) :
    brRun l = (0, l) := by
  rw [brRun.eq_def]
  split
  · rename_i rest
    rw [show ('<' :: 'b' :: 'r' :: '>' :: rest : List Char) =
      '<' :: 'b' :: 'r' :: '>' :: rest from rfl] at h
    rw [brPre] at h
    exact absurd h (by simp)
  · rfl

theorem brPre_shape (l : List Char) : brPre l = true → ∃ rest, l = '<' :: 'b' :: 'r' :: '>' :: rest := by
  rw [brPre.eq_def]
  split
  · exact fun _ => ⟨_, rfl⟩
  · intro h
    exact Bool.noConfusion h

theorem brRun_fst_zero (l : List Char) (h : (brRun l).1 = 0) :
    brPre l = false ∧ (brRun l).2 = l := by
  by_cases hp : brPre l = false
  · exact ⟨hp, by rw [brRun_zero_of_not_pre l hp]⟩
  · exfalso
    rw [Bool.not_eq_false] at hp
    obtain ⟨rest, hrest⟩ := brPre_shape l hp
    rw [hrest, brRun_cons_pre] at h
    simp at h

theorem brRun_rest_good (l : List Char) (h : 1 ≤ (brRun l).1) :
    brPre (brRun l).2 = false ∧
    (∀ c, (brRun l).2.head? = some c → pyIsSpace c = false) := by
  induction l using brRun.induct with
  | case1 rest ih =>
    rw [brRun_cons_pre] at h ⊢
    by_cases h1 : 1 ≤ (brRun (rest.dropWhile pyIsSpace)).1
    · exact ih h1
    · have hz : (brRun (rest.dropWhile pyIsSpace)).1 = 0 := by omega
      obtain ⟨hp, h2⟩ := brRun_fst_zero _ hz
      simp only [h2]
      exact ⟨hp, head?_dropWhile_false pyIsSpace rest⟩
  | case2 l hno =>
    have hp : brPre l = false := by
      cases hb : brPre l
      · rfl
      · obtain ⟨rest, hr⟩ := brPre_shape l hb
        exact absurd rfl (by rw [hr] at hno; exact hno rest)
    rw [brRun_zero_of_not_pre l hp] at h
    simp at h

theorem brRun_suffix (l : List Char) : ∃ pre, l = pre ++ (brRun l).2 := by
  induction l using brRun.induct with
  | case1 rest ih =>
    obtain ⟨pre', hp⟩ := ih
    refine ⟨'<' :: 'b' :: 'r' :: '>' :: (rest.takeWhile pyIsSpace ++ pre'), ?_⟩
    rw [brRun_cons_pre]
    simp only [List.cons_append, List.append_assoc]
    rw [← hp, List.takeWhile_append_dropWhile]
  | case2 l hno =>
    have hp : brPre l = false := by
      cases hb : brPre l
      · rfl
      · obtain ⟨rest, hr⟩ := brPre_shape l hb
        exact absurd rfl (by rw [hr] at hno; exact hno rest)
    refine ⟨[], ?_⟩
    rw [brRun_zero_of_not_pre l hp]
    rfl

theorem brRun_one_shape (l : List Char) (h : (brRun l).1 = 1) :
    ∃ s r, (∀ c ∈ s, pyIsSpace c = true) ∧
      l = '<' :: 'b' :: 'r' :: '>' :: (s ++ r) ∧ (brRun l).2 = r := by
  have hb : brPre l = true := by
    cases hbb : brPre l
    · rw [brRun_zero_of_not_pre l hbb] at h
      simp at h
    · rfl
  obtain ⟨rest, hrest⟩ := brPre_shape l hb
  subst hrest
  rw [brRun_cons_pre] at h ⊢
  simp only [] at h
  have hz : (brRun (rest.dropWhile pyIsSpace)).1 = 0 := by omega
  obtain ⟨hp0, h2⟩ := brRun_fst_zero _ hz
  refine ⟨rest.takeWhile pyIsSpace, rest.dropWhile pyIsSpace, ?_, ?_, ?_⟩
  · intro c hc
    exact List.mem_takeWhile_imp hc
  · rw [List.takeWhile_append_dropWhile]
  · simpa using h2

theorem brRun_two_shape (l : List Char) (h : (brRun l).1 = 2) :
    ∃ s₁ s₂ r, (∀ c ∈ s₁, pyIsSpace c = true) ∧ (∀ c ∈ s₂, pyIsSpace c = true) ∧
      l = '<' :: 'b' :: 'r' :: '>' :: (s₁ ++ ('<' :: 'b' :: 'r' :: '>' :: (s₂ ++ r))) ∧
      (brRun l).2 = r := by
  have hb : brPre l = true := by
    cases hbb : brPre l
    · rw [brRun_zero_of_not_pre l hbb] at h
      simp at h
    · rfl
  obtain ⟨rest, hrest⟩ := brPre_shape l hb
  subst hrest
  rw [brRun_cons_pre] at h ⊢
  simp only [] at h
  have h1 : (brRun (rest.dropWhile pyIsSpace)).1 = 1 := by omega
  obtain ⟨s₂, r, hs₂, hsh, hr⟩ := brRun_one_shape _ h1
  refine ⟨rest.takeWhile pyIsSpace, s₂, r, ?_, hs₂, ?_, ?_⟩
  · intro c hc
    exact List.mem_takeWhile_imp hc
  · rw [← hsh, List.takeWhile_append_dropWhile]
  · simpa using hr

theorem collapseBr_spaces (s x : List Char) (hs : ∀ c ∈ s, pyIsSpace c = true) :
    collapseBr (s ++ x) = s ++ collapseBr x := by
  induction s with
  | nil => simp
  | cons a s2 ih =>
    have ha : pyIsSpace a = true := hs a (List.mem_cons_self a s2)
    have hne : a ≠ '<' := by
      intro he
      subst he
      revert ha
      decide
    have hpre : brPre (a :: (s2 ++ x)) = false := brPre_cons_ne a _ hne
    rw [List.cons_append, collapseBr_cons_lt a _ (by
      rw [brRun_zero_of_not_pre _ hpre]
      omega)]
    rw [ih (fun c hc => hs c (List.mem_cons_of_mem a hc))]
    rw [List.cons_append]

theorem collapseBr_push_rep (s x : List Char) (hs : ∀ c ∈ s, pyIsSpace c = true)
    (hbx : brPre x = false) (hhx : ∀ c, x.head? = some c → pyIsSpace c = false) :
    collapseBr ('<' :: 'b' :: 'r' :: '>' :: (s ++ x)) =
      '<' :: 'b' :: 'r' :: '>' :: (s ++ collapseBr x) := by
  have hsnil : s.dropWhile pyIsSpace = [] := by
    rw [List.dropWhile_eq_nil_iff]
    exact fun c hc => hs c hc
  have hdw : (s ++ x).dropWhile pyIsSpace = x := by
    rw [List.dropWhile_append, hsnil]
    simp only [List.isEmpty_nil, if_true]
    exact dropWhile_eq_self_of_head pyIsSpace x hhx
  have hrun : brRun ('<' :: 'b' :: 'r' :: '>' :: (s ++ x)) = (1, x) := by
    rw [brRun_cons_pre, hdw, brRun_zero_of_not_pre x hbx]
  rw [collapseBr_cons_lt _ _ (by rw [hrun]; omega)]
  congr 1
  rw [collapseBr_cons_lt _ _ (by
    rw [brRun_zero_of_not_pre _ (brPre_cons_ne _ _ (by decide))]
    omega)]
  congr 1
  rw [collapseBr_cons_lt _ _ (by
    rw [brRun_zero_of_not_pre _ (brPre_cons_ne _ _ (by decide))]
    omega)]
  congr 1
  rw [collapseBr_cons_lt _ _ (by
    rw [brRun_zero_of_not_pre _ (brPre_cons_ne _ _ (by decide))]
    omega)]
  congr 1
  exact collapseBr_spaces s x hs

theorem collapseBr_push_two (s₁ s₂ x : List Char)
    (hs₁ : ∀ c ∈ s₁, pyIsSpace c = true) (hs₂ : ∀ c ∈ s₂, pyIsSpace c = true)
    (hbx : brPre x = false) (hhx : ∀ c, x.head? = some c → pyIsSpace c = false) :
    collapseBr ('<' :: 'b' :: 'r' :: '>' ::
        (s₁ ++ ('<' :: 'b' :: 'r' :: '>' :: (s₂ ++ x)))) =
      '<' :: 'b' :: 'r' :: '>' ::
        (s₁ ++ ('<' :: 'b' :: 'r' :: '>' :: (s₂ ++ collapseBr x))) := by
  have hs₁nil : s₁.dropWhile pyIsSpace = [] := by
    rw [List.dropWhile_eq_nil_iff]
    exact fun c hc => hs₁ c hc
  have hs₂nil : s₂.dropWhile pyIsSpace = [] := by
    rw [List.dropWhile_eq_nil_iff]
    exact fun c hc => hs₂ c hc
  have hdw2 : (s₂ ++ x).dropWhile pyIsSpace = x := by
    rw [List.dropWhile_append, hs₂nil]
    simp only [List.isEmpty_nil, if_true]
    exact dropWhile_eq_self_of_head pyIsSpace x hhx
  have hrun2 : brRun ('<' :: 'b' :: 'r' :: '>' :: (s₂ ++ x)) = (1, x) := by
    rw [brRun_cons_pre, hdw2, brRun_zero_of_not_pre x hbx]
  have hdw1 : (s₁ ++ ('<' :: 'b' :: 'r' :: '>' :: (s₂ ++ x))).dropWhile pyIsSpace =
      '<' :: 'b' :: 'r' :: '>' :: (s₂ ++ x) := by
    rw [List.dropWhile_append, hs₁nil]
    simp only [List.isEmpty_nil, if_true]
    exact dropWhile_eq_self_of_head pyIsSpace _ (fun c hc => by
      simp only [List.head?_cons, Option.some.injEq] at hc
      rw [← hc]
      decide)
  have hrun1 : (brRun ('<' :: 'b' :: 'r' :: '>' ::
      (s₁ ++ ('<' :: 'b' :: 'r' :: '>' :: (s₂ ++ x))))).1 = 2 := by
    rw [brRun_cons_pre, hdw1, hrun2]
  rw [collapseBr_cons_lt _ _ (by omega)]
  congr 1
  rw [collapseBr_cons_lt _ _ (by
    rw [brRun_zero_of_not_pre _ (brPre_cons_ne _ _ (by decide))]
    omega)]
  congr 1
  rw [collapseBr_cons_lt _ _ (by
    rw [brRun_zero_of_not_pre _ (brPre_cons_ne _ _ (by decide))]
    omega)]
  congr 1
  rw [collapseBr_cons_lt _ _ (by
    rw [brRun_zero_of_not_pre _ (brPre_cons_ne _ _ (by decide))]
    omega)]
  congr 1
  rw [collapseBr_spaces s₁ _ hs₁]
  congr 1
  exact collapseBr_push_rep s₂ x hs₂ hbx hhx

theorem collapseBr_head (c : Char) (t : List Char) :
    (∃ t2, collapseBr (c :: t) = c :: t2) ∨
    (c = '<' ∧ ∃ t2, collapseBr (c :: t) = '<' :: 'b' :: 'r' :: '>' :: t2) := by
  rcases Nat.lt_or_ge (brRun (c :: t)).1 3 with hlt | hge
  · exact Or.inl ⟨collapseBr t, collapseBr_cons_lt c t hlt⟩
  · have hb : brPre (c :: t) = true := by
      cases hbb : brPre (c :: t)
      · rw [brRun_zero_of_not_pre _ hbb] at hge
        simp at hge
      · rfl
    obtain ⟨rest, hr⟩ := brPre_shape _ hb
    have hc : c = '<' := by
      rw [List.cons.injEq] at hr
      exact hr.1
    exact Or.inr ⟨hc, _, by rw [collapseBr_cons_ge c t hge, hc]⟩

theorem brPre_pos2 (b : Char) (t : List Char) (h : b ≠ 'b') :
    brPre ('<' :: b :: t) = false := by
  rw [brPre.eq_def]
  split
  · rename_i heq
    simp only [List.cons.injEq] at heq
    exact absurd heq.2.1 h
  · rfl

theorem brPre_pos3 (c : Char) (t : List Char) (h : c ≠ 'r') :
    brPre ('<' :: 'b' :: c :: t) = false := by
  rw [brPre.eq_def]
  split
  · rename_i heq
    simp only [List.cons.injEq] at heq
    exact absurd heq.2.2.1 h
  · rfl

theorem brPre_pos4 (d : Char) (t : List Char) (h : d ≠ '>') :
    brPre ('<' :: 'b' :: 'r' :: d :: t) = false := by
  rw [brPre.eq_def]
  split
  · rename_i heq
    simp only [List.cons.injEq] at heq
    exact absurd heq.2.2.2.1 h
  · rfl

theorem brPre_collapse (l : List Char) (h : brPre l = false) :
    brPre (collapseBr l) = false := by
  match l with
  | [] =>
    rw [collapseBr_nil]
    rfl
  | c :: t =>
    have h0 : (brRun (c :: t)).1 < 3 := by
      cases hz : (brRun (c :: t)).1 with
      | zero => omega
      | succ k =>
        exfalso
        have hb : brPre (c :: t) = true := by
          cases hbb : brPre (c :: t)
          · rw [brRun_zero_of_not_pre _ hbb] at hz
            simp at hz
          · rfl
        rw [hb] at h
        exact Bool.noConfusion h
    rw [collapseBr_cons_lt c t h0]
    by_cases hc : c = '<'
    case neg => exact brPre_cons_ne c _ hc
    subst hc
    cases t with
    | nil =>
      rw [collapseBr_nil]
      rfl
    | cons b t2 =>
      by_cases hb : b = 'b'
      case neg =>
        rcases collapseBr_head b t2 with ⟨t5, h5⟩ | ⟨hbd, t5, h5⟩
        · rw [h5]
          exact brPre_pos2 b t5 hb
        · rw [h5]
          exact brPre_pos2 '<' _ (by decide)
      subst hb
      have h20 : (brRun ('b' :: t2)).1 < 3 := by
        rw [brRun_zero_of_not_pre _ (brPre_cons_ne _ _ (by decide))]
        omega
      rw [collapseBr_cons_lt _ _ h20]
      cases t2 with
      | nil =>
        rw [collapseBr_nil]
        rfl
      | cons r2 t3 =>
        by_cases hr : r2 = 'r'
        case neg =>
          rcases collapseBr_head r2 t3 with ⟨t5, h5⟩ | ⟨hrd, t5, h5⟩
          · rw [h5]
            exact brPre_pos3 r2 t5 hr
          · rw [h5]
            exact brPre_pos3 '<' _ (by decide)
        subst hr
        have h30 : (brRun ('r' :: t3)).1 < 3 := by
          rw [brRun_zero_of_not_pre _ (brPre_cons_ne _ _ (by decide))]
          omega
        rw [collapseBr_cons_lt _ _ h30]
        cases t3 with
        | nil =>
          rw [collapseBr_nil]
          rfl
        | cons d t4 =>
          by_cases hd : d = '>'
          · subst hd
            exfalso
            have hT : brPre ('<' :: 'b' :: 'r' :: '>' :: t4) = true := rfl
            rw [hT] at h
            exact Bool.noConfusion h
          · rcases collapseBr_head d t4 with ⟨t5, h5⟩ | ⟨hdd, t5, h5⟩
            · rw [h5]
              exact brPre_pos4 d t5 hd
            · rw [h5]
              exact brPre_pos4 '<' _ (by decide)

theorem headSpace_collapse (l : List Char)
    (h : ∀ c, l.head? = some c → pyIsSpace c = false) :
    ∀ c, (collapseBr l).head? = some c → pyIsSpace c = false := by
  match l with
  | [] =>
    rw [collapseBr_nil]
    intro c hc
    exact absurd hc (by simp)
  | a :: t =>
    rcases collapseBr_head a t with ⟨t2, h2⟩ | ⟨ha, t2, h2⟩
    · rw [h2]
      intro c hc
      simp only [List.head?_cons, Option.some.injEq] at hc
      rw [← hc]
      exact h a rfl
    · rw [h2]
      intro c hc
      simp only [List.head?_cons, Option.some.injEq] at hc
      rw [← hc]
      decide

theorem collapseBr_idem (l : List Char) :
    collapseBr (collapseBr l) = collapseBr l := by
  have main : ∀ (n : Nat) (l2 : List Char), l2.length ≤ n →
      collapseBr (collapseBr l2) = collapseBr l2 := by
    intro n
    induction n with
    | zero =>
      intro l2 hl
      have hnil : l2 = [] := List.eq_nil_of_length_eq_zero (by omega)
      subst hnil
      rw [collapseBr_nil, collapseBr_nil]
    | succ k ih =>
      intro l2 hl
      cases l2 with
      | nil => rw [collapseBr_nil, collapseBr_nil]
      | cons c t =>
        rcases Nat.lt_or_ge (brRun (c :: t)).1 3 with hlt | hge
        · rcases hn0 : (brRun (c :: t)).1 with _ | n1
          · -- no repetition starts here: emit one character
            obtain ⟨hp, h2⟩ := brRun_fst_zero _ hn0
            rw [collapseBr_cons_lt c t (by omega)]
            have hpc : brPre (c :: collapseBr t) = false := by
              have hx := brPre_collapse _ hp
              rw [collapseBr_cons_lt c t (by omega)] at hx
              exact hx
            rw [collapseBr_cons_lt c (collapseBr t) (by
              rw [brRun_zero_of_not_pre _ hpc]
              omega)]
            congr 1
            apply ih t
            simp only [List.length_cons] at hl
            omega
          · rcases n1 with _ | n2
            · -- exactly one repetition
              obtain ⟨s, r, hs, hsh, hr⟩ := brRun_one_shape (c :: t) (by omega)
              obtain ⟨hbr, hhr⟩ := brRun_rest_good (c :: t) (by omega)
              rw [hr] at hbr hhr
              rw [hsh]
              rw [collapseBr_push_rep s r hs hbr hhr]
              rw [collapseBr_push_rep s (collapseBr r) hs (brPre_collapse r hbr)
                (headSpace_collapse r hhr)]
              have hlr : r.length ≤ k := by
                rw [hsh] at hl
                simp only [List.length_cons, List.length_append] at hl
                omega
              rw [ih r hlr]
            · rcases n2 with _ | n3
              · -- exactly two repetitions
                obtain ⟨s₁, s₂, r, hs₁, hs₂, hsh, hr⟩ := brRun_two_shape (c :: t) (by omega)
                obtain ⟨hbr, hhr⟩ := brRun_rest_good (c :: t) (by omega)
                rw [hr] at hbr hhr
                rw [hsh]
                rw [collapseBr_push_two s₁ s₂ r hs₁ hs₂ hbr hhr]
                rw [collapseBr_push_two s₁ s₂ (collapseBr r) hs₁ hs₂
                  (brPre_collapse r hbr) (headSpace_collapse r hhr)]
                have hlr : r.length ≤ k := by
                  rw [hsh] at hl
                  simp only [List.length_cons, List.length_append] at hl
                  omega
                rw [ih r hlr]
              · omega
        · -- three or more repetitions: they collapse to two
          obtain ⟨hbr, hhr⟩ := brRun_rest_good (c :: t) (by omega)
          rw [collapseBr_cons_ge c t hge]
          have hpush := collapseBr_push_two [] [] (collapseBr (brRun (c :: t)).2)
            (by simp) (by simp) (brPre_collapse _ hbr) (headSpace_collapse _ hhr)
          simp only [List.nil_append] at hpush
          rw [hpush]
          have hlr : (brRun (c :: t)).2.length ≤ k := by
            have hb := brRun_len (c :: t)
            simp only [List.length_cons] at hl hb
            omega
          rw [ih _ hlr]
  exact main l.length l (Nat.le_refl _)

theorem boldSub_nil : boldSub [] = [] := by
  rw [boldSub]

theorem boldSub_cons_ne (a : Char) (t : List Char) (ha : a ≠ '*') :
    boldSub (a :: t) = a :: boldSub t := by
  rw [boldSub.eq_def]
  split
  · rename_i rest heq
    simp only [List.cons.injEq] at heq
    exact absurd heq.1 ha
  · rename_i c rest heq
    simp only [List.cons.injEq] at heq
    rw [heq.1, heq.2]
  · rename_i heq
    exact absurd heq (by simp)

theorem boldSub_noStar (l : List Char) (h : ∀ c ∈ l, c ≠ '*') :
    boldSub l = l := by
  induction l with
  | nil => exact boldSub_nil
  | cons a t ih =>
    rw [boldSub_cons_ne a t (h a (List.mem_cons_self a t))]
    rw [ih (fun c hc => h c (List.mem_cons_of_mem a hc))]

theorem starFree_collapse (l : List Char) (h : ∀ c ∈ l, c ≠ '*') :
    ∀ c ∈ collapseBr l, c ≠ '*' := by
  induction l using collapseBr.induct with
  | case1 =>
    rw [collapseBr_nil]
    intro c hc
    exact absurd hc (List.not_mem_nil c)
  | case2 c t hge ih =>
    rw [collapseBr_cons_ge c t hge]
    intro d hd
    obtain ⟨pre, hpre⟩ := brRun_suffix (c :: t)
    have hr : ∀ x ∈ (brRun (c :: t)).2, x ≠ '*' := fun x hx =>
      h x (by rw [hpre]; exact List.mem_append_right pre hx)
    simp only [List.mem_cons] at hd
    rcases hd with hd | hd | hd | hd | hd | hd | hd | hd | hd
    · rw [hd]; decide
    · rw [hd]; decide
    · rw [hd]; decide
    · rw [hd]; decide
    · rw [hd]; decide
    · rw [hd]; decide
    · rw [hd]; decide
    · rw [hd]; decide
    · exact ih hr d hd
  | case3 c t hlt ih =>
    rw [collapseBr_cons_lt c t (by omega)]
    intro d hd
    rcases List.mem_cons.mp hd with hd | hd
    · rw [hd]
      exact h c (List.mem_cons_self c t)
    · exact ih (fun x hx => h x (List.mem_cons_of_mem c hx)) d hd

theorem isPre_brlist (x : List Char) :
    List.isPrefixOf ('<' :: 'b' :: 'r' :: '>' :: []) ('<' :: 'b' :: 'r' :: '>' :: x) = true := by
  simp [List.isPrefixOf]

theorem infix_of_isPre (needle hay : List Char)
    (h : List.isPrefixOf needle hay = true) : listIsInfixOf needle hay = true := by
  cases hay with
  | nil =>
    cases needle with
    | nil => rfl
    | cons a t => simp [List.isPrefixOf] at h
  | cons a t => simp [listIsInfixOf, h]

theorem infix_cons_of (needle : List Char) (c : Char) (t : List Char)
    (h : listIsInfixOf needle t = true) : listIsInfixOf needle (c :: t) = true := by
  simp [listIsInfixOf, h]

theorem brPre_of_isPre (l : List Char)
    (h : List.isPrefixOf ('<' :: 'b' :: 'r' :: '>' :: []) l = true) :
    brPre l = true := by
  cases l with
  | nil => simp [List.isPrefixOf] at h
  | cons c1 t1 =>
    cases t1 with
    | nil =>
      simp only [List.isPrefixOf, Bool.and_eq_true] at h
      exact absurd h.2 (by simp [List.isPrefixOf])
    | cons c2 t2 =>
      cases t2 with
      | nil =>
        simp only [List.isPrefixOf, Bool.and_eq_true] at h
        exact absurd h.2.2 (by simp [List.isPrefixOf])
      | cons c3 t3 =>
        cases t3 with
        | nil =>
          simp only [List.isPrefixOf, Bool.and_eq_true] at h
          exact absurd h.2.2.2 (by simp [List.isPrefixOf])
        | cons c4 t4 =>
          simp only [List.isPrefixOf, Bool.and_eq_true, beq_iff_eq] at h
          obtain ⟨h1, h2, h3, h4, _⟩ := h
          rw [← h1, ← h2, ← h3, ← h4]
          rfl

theorem brInfix_collapse (l : List Char)
    (h : listIsInfixOf ('<' :: 'b' :: 'r' :: '>' :: []) l = true) :
    listIsInfixOf ('<' :: 'b' :: 'r' :: '>' :: []) (collapseBr l) = true := by
  have main : ∀ (n : Nat) (l2 : List Char), l2.length ≤ n →
      listIsInfixOf ('<' :: 'b' :: 'r' :: '>' :: []) l2 = true →
      listIsInfixOf ('<' :: 'b' :: 'r' :: '>' :: []) (collapseBr l2) = true := by
    intro n
    induction n with
    | zero =>
      intro l2 hl h2
      have hnil : l2 = [] := List.eq_nil_of_length_eq_zero (by omega)
      subst hnil
      exact absurd h2 (by decide)
    | succ k ih =>
      intro l2 hl h2
      cases l2 with
      | nil => exact absurd h2 (by decide)
      | cons c t =>
        rcases Nat.lt_or_ge (brRun (c :: t)).1 3 with hlt | hge
        · rcases hn0 : (brRun (c :: t)).1 with _ | n1
          · obtain ⟨hp, hr2⟩ := brRun_fst_zero _ hn0
            rw [collapseBr_cons_lt c t (by omega)]
            have hinf : listIsInfixOf ('<' :: 'b' :: 'r' :: '>' :: []) t = true := by
              have h3 : (List.isPrefixOf ('<' :: 'b' :: 'r' :: '>' :: []) (c :: t) ||
                  listIsInfixOf ('<' :: 'b' :: 'r' :: '>' :: []) t) = true := h2
              rcases Bool.or_eq_true_iff.mp h3 with h4 | h4
              · exact absurd (brPre_of_isPre _ h4) (by rw [hp]; simp)
              · exact h4
            apply infix_cons_of
            apply ih t _ hinf
            simp only [List.length_cons] at hl
            omega
          · rcases n1 with _ | n2
            · obtain ⟨s, r, hs, hsh, hr⟩ := brRun_one_shape (c :: t) (by omega)
              obtain ⟨hbr, hhr⟩ := brRun_rest_good (c :: t) (by omega)
              rw [hr] at hbr hhr
              rw [hsh, collapseBr_push_rep s r hs hbr hhr]
              exact infix_of_isPre _ _ (isPre_brlist _)
            · rcases n2 with _ | n3
              · obtain ⟨s₁, s₂, r, hs₁, hs₂, hsh, hr⟩ := brRun_two_shape (c :: t) (by omega)
                obtain ⟨hbr, hhr⟩ := brRun_rest_good (c :: t) (by omega)
                rw [hr] at hbr hhr
                rw [hsh, collapseBr_push_two s₁ s₂ r hs₁ hs₂ hbr hhr]
                exact infix_of_isPre _ _ (isPre_brlist _)
              · omega
        · rw [collapseBr_cons_ge c t hge]
          exact infix_of_isPre _ _ (isPre_brlist _)
  exact main l.length l (Nat.le_refl _) h

/-- C7 counterexample: `format_response` is not idempotent.  On the
numbered-list input `1. **Hello** world` the first pass produces a bullet
line; the second pass re-enters the bullet branch and prepends `<br><br>`. -/
theorem format_response_not_idempotent :
    format_response (format_response "1. **Hello** world") ≠
      format_response "1. **Hello** world" := by
  have h1 : format_response "1. **Hello** world" = "• <b>Hello</b> world" := by
    simp +decide [format_response, boldSub, numSub1, numSub2, numTail1, numTail2,
      listIsInfixOf, bulletize, splitOnChar, pyStripList, pyIsSpace, notStar, notLt,
      startsTwoStars, List.dropWhile, List.takeWhile, List.isPrefixOf, collapseBr, brRun,
      List.intercalate]
  have h2 : format_response "• <b>Hello</b> world" = "<br><br>• <b>Hello</b> world" := by
    simp +decide [format_response, boldSub, numSub1, numSub2, numTail1, numTail2,
      listIsInfixOf, bulletize, splitOnChar, pyStripList, pyIsSpace, notStar, notLt,
      startsTwoStars, List.dropWhile, List.takeWhile, List.isPrefixOf, collapseBr, brRun,
      List.intercalate]
  rw [h1, h2]
  decide

/-- C7 corrected: `format_response` is idempotent on already-formatted
text — any input that contains a `<br>` tag and no asterisk.  On such
input the transform only collapses runs of three or more `<br>`s, and that
collapse is idempotent.  (On general input a second application can
differ: see the numbered-list counterexample.) -/
theorem format_response_idem_amended (s : String)
    (hbr : listIsInfixOf ('<' :: 'b' :: 'r' :: '>' :: []) s.data = true)
    (hstar : ∀ c ∈ s.data, c ≠ '*') :
    format_response (format_response s) = format_response s := by
  have h1 : format_response s = ⟨collapseBr s.data⟩ := by
    simp only [format_response]
    rw [boldSub_noStar s.data hstar]
    rw [if_pos hbr]
  rw [h1]
  have hstar2 : ∀ c ∈ (⟨collapseBr s.data⟩ : String).data, c ≠ '*' :=
    starFree_collapse s.data hstar
  have hbr2 : listIsInfixOf ('<' :: 'b' :: 'r' :: '>' :: [])
      (⟨collapseBr s.data⟩ : String).data = true := brInfix_collapse s.data hbr
  simp only [format_response]
  rw [boldSub_noStar _ hstar2]
  rw [if_pos hbr2]
  show (⟨collapseBr (collapseBr s.data)⟩ : String) = ⟨collapseBr s.data⟩
  rw [collapseBr_idem]

/-- Witness for the corrected C7 at a concrete already-formatted text. -/
theorem format_response_idem_amended_app :
    format_response (format_response "Take a breath.<br><br><br> <br>Then reply briefly.") =
      format_response "Take a breath.<br><br><br> <br>Then reply briefly." :=
  format_response_idem_amended "Take a breath.<br><br><br> <br>Then reply briefly."
    (by decide) (by decide)
